import Mathlib

/-!
Verification development for the substack-to-kindle repository.

The Go sources are shallowly embedded: strings are modeled as Lean
`String`s (sequences of characters; Go's `len` and slicing count bytes,
which coincides with characters on the ASCII data all claims exercise),
network and filesystem effects are modeled as explicit oracles passed in
as parameters, and fallible operations return `Except`/`Option`.
All string-manipulating helpers are written with structural recursion so
that every definition evaluates inside the kernel (`decide`/`rfl`).
-/

set_option autoImplicit false

namespace GoStr

/-- Character-level model of Go `unicode.IsSpace` (the Latin-1 white space
set plus the Unicode space separators). -/
def goIsSpace (c : Char) : Bool :=
  c = ' ' || c = '\t' || c = '\n' || c = Char.ofNat 11 || c = Char.ofNat 12 ||
  c = '\r' || c.toNat = 0x85 || c.toNat = 0xA0 || c.toNat = 0x1680 ||
  (0x2000 ≤ c.toNat && c.toNat ≤ 0x200A) || c.toNat = 0x2028 || c.toNat = 0x2029 ||
  c.toNat = 0x202F || c.toNat = 0x205F || c.toNat = 0x3000

/-- Model of Go `strings.TrimSpace` on a character list: drop white space
from both ends. -/
def goTrimSpaceL (l : List Char) : List Char :=
  ((l.dropWhile goIsSpace).reverse.dropWhile goIsSpace).reverse

/-- Model of Go `strings.TrimSpace`. -/
def goTrimSpace (s : String) : String :=
  String.mk (goTrimSpaceL s.data)

/-- ASCII model of Go `strings.ToLower` (the paths and extensions in the
claims are ASCII). -/
def goToLower (s : String) : String :=
  String.mk (s.data.map fun c =>
    if 'A' ≤ c ∧ c ≤ 'Z' then Char.ofNat (c.toNat + 32) else c)

/-- Does the first list start with the second one? -/
def startsWithL : List Char → List Char → Bool
  | _, [] => true
  | [], _ :: _ => false
  | c :: s, p :: ps => if c = p then startsWithL s ps else false

/-- Does the pattern occur as a contiguous sublist? -/
def occursInL : List Char → List Char → Bool
  | [], p => startsWithL [] p
  | c :: rest, p => if startsWithL (c :: rest) p then true else occursInL rest p

/-- Substring test on strings (model of Go `strings.Contains`). -/
def strHasSub (s pat : String) : Bool :=
  occursInL s.data pat.data

/-- Model of Go `strings.HasSuffix`. -/
def goHasSuffix (s suffix : String) : Bool :=
  startsWithL s.data.reverse suffix.data.reverse

/-- Model of Go `strings.TrimSuffix`. -/
def goTrimSuffix (s suffix : String) : String :=
  if goHasSuffix s suffix then String.mk (s.data.take (s.data.length - suffix.data.length))
  else s

/-- Fuel-driven replacement loop; the fuel is the length of the subject so
the definition is structurally recursive and kernel-reducible. -/
def replaceFuel : Nat → List Char → List Char → List Char → List Char
  | 0, s, _, _ => s
  | _ + 1, [], _, _ => []
  | fuel + 1, c :: rest, pat, rep =>
    if startsWithL (c :: rest) pat then rep ++ replaceFuel fuel (List.drop pat.length (c :: rest)) pat rep
    else c :: replaceFuel fuel rest pat rep

/-- Model of Go `strings.ReplaceAll` for a non-empty pattern (every pattern
the program replaces is a non-empty URL or character). -/
def goReplaceAll (s pat rep : String) : String :=
  if pat.data = [] then s
  else String.mk (replaceFuel s.data.length s.data pat.data rep.data)

/-- Model of Go `strings.Split` (non-empty separator case, which is the
only way the program calls it). -/
def goSplitFuel (sep : List Char) : Nat → List Char → List Char → List (List Char)
  | 0, acc, _ => [acc.reverse]
  | _ + 1, acc, [] => [acc.reverse]
  | fuel + 1, acc, c :: rest =>
    if startsWithL (c :: rest) sep ∧ sep ≠ [] then
      acc.reverse :: goSplitFuel sep fuel [] (List.drop sep.length (c :: rest))
    else
      goSplitFuel sep fuel (c :: acc) rest

/-- Model of Go `strings.Split` for a non-empty separator. -/
def goSplit (s sep : String) : List String :=
  (goSplitFuel sep.data s.data.length [] s.data).map String.mk

/-- Model of Go `filepath.Base` (Unix rules: drop trailing slashes, keep
the last path element). -/
def goBase (s : String) : String :=
  if s = "" then "." else
  let stripped := (s.data.reverse.dropWhile (· = '/')).reverse
  if stripped = [] then "/" else
  String.mk (stripped.reverse.takeWhile (· ≠ '/')).reverse

/-- Model of Go `filepath.Dir` restricted to the shapes the program
produces (a directory joined with a file name). -/
def goDir (s : String) : String :=
  let stripped := (s.data.reverse.dropWhile (· = '/')).reverse
  let dir := ((stripped.reverse.dropWhile (· ≠ '/')).reverse.reverse.dropWhile (· = '/')).reverse
  if dir = [] then "." else String.mk dir

/-- Model of Go `filepath.Join` for a clean directory and a clean name. -/
def goJoin (dir name : String) : String :=
  dir ++ "/" ++ name

/-- Model of Go `filepath.Ext`: the suffix of the last path element
starting at its final dot, or the empty string. -/
def goExt (s : String) : String :=
  let rev := s.data.reverse.takeWhile (· ≠ '/')
  if rev.any (· = '.') then String.mk ('.' :: (rev.takeWhile (· ≠ '.')).reverse).reverse
  else ""

/-- True when the string contains one of the given characters. -/
def containsAnyOf (s : String) (cs : List Char) : Bool :=
  s.data.any fun c => cs.contains c

end GoStr

namespace B64

/-- The standard base64 alphabet (RFC 4648), as used by Go
`base64.StdEncoding`. -/
def alphabet : List Char :=
  "ABCDEFGHIJKLMNOPQRSTUVWXYZabcdefghijklmnopqrstuvwxyz0123456789+/".data

/-- Encoding character for a six-bit value. -/
def b64Char (n : Nat) : Char := alphabet.getD n '='

/-- Index of a character in the base64 alphabet. -/
def b64ValAux : List Char → Char → Nat → Nat
  | [], _, _ => 0
  | a :: rest, c, i => if a = c then i else b64ValAux rest c (i + 1)

/-- Six-bit value of a base64 character. -/
def b64Val (c : Char) : Nat := b64ValAux alphabet c 0

/-- Standard (padded) base64 encoding of a byte sequence, the encoding
produced by Go `base64.NewEncoder(base64.StdEncoding, w)` followed by
`Close`. -/
def b64Encode : List Nat → List Char
  | [] => []
  | [a] => [b64Char (a / 4), b64Char (a % 4 * 16), '=', '=']
  | [a, b] => [b64Char (a / 4), b64Char (a % 4 * 16 + b / 16), b64Char (b % 16 * 4), '=']
  | a :: b :: d :: rest =>
    b64Char (a / 4) :: b64Char (a % 4 * 16 + b / 16) :: b64Char (b % 16 * 4 + d / 64) ::
      b64Char (d % 64) :: b64Encode rest

/-- Standard base64 decoding (RFC 4648): the inverse direction used to
state the round-trip property. -/
def b64Decode : List Char → List Nat
  | c1 :: c2 :: c3 :: c4 :: rest =>
    if c4 = '=' then
      if c3 = '=' then [b64Val c1 * 4 + b64Val c2 / 16]
      else [b64Val c1 * 4 + b64Val c2 / 16, b64Val c2 % 16 * 16 + b64Val c3 / 4]
    else
      (b64Val c1 * 4 + b64Val c2 / 16) :: (b64Val c2 % 16 * 16 + b64Val c3 / 4) ::
        (b64Val c3 % 4 * 64 + b64Val c4) :: b64Decode rest
  | _ => []

end B64

namespace Converter

/-- Character set replaced by `sanitizeFilename` in pkg/converter. -/
def invalidFilenameChars : List Char := ['/', '\\', ':', '*', '?', '"', '<', '>', '|']

/-- Model of pkg/converter `sanitizeFilename`: replace each invalid
character with an underscore, trim surrounding white space, then truncate
to 100. -/
def sanitizeFilename (name : String) : String :=
  let replaced :=
    invalidFilenameChars.foldl (fun r c => r.map fun d => if d = c then '_' else d) name.data
  let trimmed := GoStr.goTrimSpaceL replaced
  String.mk (if trimmed.length > 100 then trimmed.take 100 else trimmed)

end Converter

namespace PDFConverter

/-- Character set replaced by `sanitizeFilename` in pkg/pdfconverter. -/
def invalidChars : List Char := ['/', '\\', ':', '*', '?', '"', '<', '>', '|']

/-- Model of pkg/pdfconverter `sanitizeFilename`: it performs only the
character replacement, with no trimming and no truncation. -/
def sanitizeFilename (name : String) : String :=
  String.mk (invalidChars.foldl (fun r c => r.map fun d => if d = c then '_' else d) name.data)

end PDFConverter

section SanitizeLemmas

/-- Characters surviving a single replacement pass are either the
underscore or untouched characters different from the replaced one. -/
lemma mem_replace_char {x c : Char} {s : List Char}
    (hx : x ∈ s.map fun d => if d = c then '_' else d) :
    x = '_' ∨ (x ∈ s ∧ x ≠ c) := by
  rcases List.mem_map.mp hx with ⟨d, hd, hdx⟩
  by_cases hdc : d = c
  · subst hdc; simp at hdx; exact Or.inl hdx.symm
  · right
    simp [hdc] at hdx
    exact ⟨hdx ▸ hd, hdx ▸ hdc⟩

/-- Characters surviving the replacement fold are either the underscore or
original characters outside the replaced set. -/
lemma mem_fold_replace (cs : List Char) (l : List Char) (x : Char)
    (hx : x ∈ cs.foldl (fun r c => r.map fun d => if d = c then '_' else d) l) :
    x = '_' ∨ (x ∈ l ∧ x ∉ cs) := by
  induction cs generalizing l with
  | nil => exact Or.inr ⟨hx, by simp⟩
  | cons c cs ih =>
    rcases ih _ hx with h | ⟨hmem, hnot⟩
    · exact Or.inl h
    · rcases mem_replace_char hmem with h | ⟨hl, hne⟩
      · exact Or.inl h
      · exact Or.inr ⟨hl, by simp [hne, hnot]⟩

/-- The trimmed list is a subset of the original. -/
lemma mem_goTrimSpaceL {x : Char} {l : List Char} (hx : x ∈ GoStr.goTrimSpaceL l) : x ∈ l := by
  unfold GoStr.goTrimSpaceL at hx
  rw [List.mem_reverse] at hx
  have h1 := (List.dropWhile_sublist (l := (l.dropWhile GoStr.goIsSpace).reverse)
    (p := GoStr.goIsSpace)).subset hx
  rw [List.mem_reverse] at h1
  exact (List.dropWhile_sublist (l := l) (p := GoStr.goIsSpace)).subset h1

end SanitizeLemmas

section SanitizeClaims

/-- Every character of the converter-package sanitized name lies outside the
invalid set. -/
lemma converter_sanitize_mem (name : String) {x : Char}
    (hx : x ∈ (Converter.sanitizeFilename name).data) :
    x ∉ Converter.invalidFilenameChars := by
  simp only [Converter.sanitizeFilename] at hx
  have hx' : x ∈ GoStr.goTrimSpaceL
      (Converter.invalidFilenameChars.foldl
        (fun r c => r.map fun d => if d = c then '_' else d) name.data) := by
    split at hx
    · exact List.take_subset _ _ hx
    · exact hx
  rcases mem_fold_replace _ _ _ (mem_goTrimSpaceL hx') with h | ⟨_, h⟩
  · subst h; decide
  · exact h

/-- Every character of the pdfconverter-package sanitized name lies outside
the invalid set. -/
lemma pdf_sanitize_mem (name : String) {x : Char}
    (hx : x ∈ (PDFConverter.sanitizeFilename name).data) :
    x ∉ PDFConverter.invalidChars := by
  simp only [PDFConverter.sanitizeFilename] at hx
  rcases mem_fold_replace _ _ _ hx with h | ⟨_, h⟩
  · subst h; decide
  · exact h

/-- C1 (amended): filename sanitization exists as two package-local copies,
not one shared utility. The converter copy replaces the characters
/ \ : * ? " < > | with underscores, trims surrounding white space and then
truncates, so its result contains none of those characters and has length
at most 100; the pdfconverter copy performs only the replacement, so its
result is merely free of those characters. -/
theorem claim_c1_sanitize_amended (name : String) :
    GoStr.containsAnyOf (Converter.sanitizeFilename name) Converter.invalidFilenameChars = false ∧
    (Converter.sanitizeFilename name).data.length ≤ 100 ∧
    GoStr.containsAnyOf (PDFConverter.sanitizeFilename name) PDFConverter.invalidChars = false := by
  refine ⟨?_, ?_, ?_⟩
  · rw [GoStr.containsAnyOf, List.any_eq_false]
    intro c hc
    simpa using converter_sanitize_mem name hc
  · simp only [Converter.sanitizeFilename]
    split
    · exact List.length_take_le 100 _
    · next h => exact Nat.le_of_not_lt h
  · rw [GoStr.containsAnyOf, List.any_eq_false]
    intro c hc
    simpa using pdf_sanitize_mem name hc

/-- Length of the replacement fold equals the input length. -/
lemma fold_replace_length (cs : List Char) (l : List Char) :
    (cs.foldl (fun r c => r.map fun d => if d = c then '_' else d) l).length = l.length := by
  induction cs generalizing l with
  | nil => rfl
  | cons c cs ih => simp [List.foldl_cons, ih]

/-- C1 counterexample: the pdfconverter copy of `sanitizeFilename` does not
truncate, so on a 101-character input the output keeps length 101, refuting
the claimed bound of 100 for every input to the shared sanitization. -/
theorem claim_c1_cex :
    (PDFConverter.sanitizeFilename (String.mk (List.replicate 101 'a'))).data.length = 101 := by
  simp [PDFConverter.sanitizeFilename, fold_replace_length]

end SanitizeClaims

namespace Scraper

/-- An HTML element as observed through the goquery selections the scraper
performs: its combined text, its attributes, and its rendered inner HTML
(`none` models a rendering failure of `Selection.Html`). -/
structure Node where
  text : String
  attrs : List (String × String)
  inner : Option String

/-- A parsed page: every CSS selector yields the (ordered) list of matching
elements. -/
structure Document where
  find : String → List Node

/-- Model of the scraper `Article` record. -/
structure Article where
  Title : String
  Author : String
  PublishedAt : Nat
  Content : String
  URL : String
  ImageURLs : List String
deriving DecidableEq

/-- goquery `Selection.Text`: concatenated text of all matched elements. -/
def selText (ns : List Node) : String := String.join (ns.map (·.text))

/-- goquery `Selection.First().Text()`. -/
def firstText : List Node → String
  | [] => ""
  | n :: _ => n.text

/-- goquery `Selection.Attr`: attribute of the first matched element. -/
def selAttr (ns : List Node) (name : String) : Option String :=
  match ns with
  | [] => none
  | n :: _ => n.attrs.lookup name

/-- goquery `Selection.AttrOr`. -/
def attrOr (ns : List Node) (name dflt : String) : String :=
  (selAttr ns name).getD dflt

/-- goquery `Selection.Html`: inner HTML of the first matched element; an
empty selection yields the empty string with no error. -/
def selHtml : List Node → Except String String
  | [] => .ok ""
  | n :: _ =>
    match n.inner with
    | some h => .ok h
    | none => .error "failed to render HTML"

/-- The ordered author selector candidates probed by `ScrapeSubstack`. -/
def authorSelectors : List String :=
  [".byline-link", ".author-name", ".substack-author", ".post-header .author",
   "meta[name='author']"]

/-- The body container selector union probed by `ScrapeSubstack`. -/
def contentSelector : String :=
  ".available-content, .subscriber-content, .post-content, .body"

/-- Author extraction loop: first non-empty selector match wins, with the
metadata tag read through its `content` attribute. -/
def pickAuthor (d : Document) : List String → String
  | [] => ""
  | sel :: rest =>
    if sel = "meta[name='author']" then
      match selAttr (d.find sel) "content" with
      | some author => if author ≠ "" then GoStr.goTrimSpace author else pickAuthor d rest
      | none => pickAuthor d rest
    else
      let author := GoStr.goTrimSpace (selText (d.find sel))
      if author ≠ "" then author else pickAuthor d rest

/-- Fallback author: the subdomain parsed out of the URL. -/
def authorFromURL (url : String) : String :=
  let parts := GoStr.goSplit url "//"
  if parts.length > 1 then
    let domainParts := GoStr.goSplit (parts.getD 1 "") "."
    if domainParts.length > 0 then (GoStr.goSplit (domainParts.getD 0 "") "/").getD 0 ""
    else ""
  else ""

/-- Model of `ScrapeSubstack` after a successful HTTP 200 fetch and HTML
parse (transport and non-200 failures abort earlier with an error and are
outside every claim about fetched pages). `parseRFC3339` abstracts
`time.Parse(time.RFC3339, ...)`. -/
def scrapeSubstack (parseRFC3339 : String → Option Nat) (d : Document) (url : String) :
    Except String Article :=
  let title0 := GoStr.goTrimSpace (selText (d.find "h1.post-title"))
  let title := if title0 = "" then GoStr.goTrimSpace (firstText (d.find "h1")) else title0
  let author0 := pickAuthor d authorSelectors
  let author := if author0 = "" then authorFromURL url else author0
  let dateStr := attrOr (d.find "time") "datetime" ""
  let published := if dateStr ≠ "" then (parseRFC3339 dateStr).getD 0 else 0
  match selHtml (d.find contentSelector) with
  | .error e => .error ("failed to extract content: " ++ e)
  | .ok contentHTML =>
    .ok { Title := title, Author := author, PublishedAt := published,
          Content := contentHTML, URL := url,
          ImageURLs := (d.find (contentSelector ++ " img")).filterMap fun n =>
            match n.attrs.lookup "src" with
            | some src => if src ≠ "" then some src else none
            | none => none }

end Scraper

section ScraperClaims

/-- C4 (confirmed): on a fetched page where the body container selector
matches nothing, the scrape returns a content record with an empty body and
an empty image list, and reports no error. -/
theorem claim_c4_empty_body (parse : String → Option Nat) (d : Scraper.Document) (url : String)
    (h1 : d.find Scraper.contentSelector = [])
    (h2 : d.find (Scraper.contentSelector ++ " img") = []) :
    ∃ a, Scraper.scrapeSubstack parse d url = .ok a ∧ a.Content = "" ∧ a.ImageURLs = [] := by
  simp only [Scraper.scrapeSubstack, h1, h2]
  exact ⟨_, rfl, rfl, rfl⟩

/-- A document on which every selector is empty. -/
def emptyDoc : Scraper.Document := ⟨fun _ => []⟩

/-- C4 witness: the scenario from the spec, scraping a page with no body
container match yields a non-error record with empty body. -/
theorem claim_c4_witness :
    ∃ a, Scraper.scrapeSubstack (fun _ => none) emptyDoc "https://example.substack.com/p/test"
        = .ok a ∧ a.Content = "" ∧ a.ImageURLs = [] :=
  claim_c4_empty_body (fun _ => none) emptyDoc "https://example.substack.com/p/test" rfl rfl

end ScraperClaims

namespace Converter

/-- Model of the converter `ConversionResult` record. -/
structure ConversionResult where
  FilePath : String
  Title : String
  Author : String
deriving DecidableEq

/-- Local file name chosen by `downloadImage`: the base of the URL, or a
timestamped fallback when the base is empty or has no dot. The per-call
value of `time.Now().UnixNano()` is modeled by the call counter `tick`. -/
def dlFilename (url : String) (tick : Nat) : String :=
  let filename := GoStr.goBase url
  if filename = "" ∨ ¬ (filename.data.any (· = '.')) then "image_" ++ toString tick ++ ".jpg"
  else filename

/-- Model of `downloadImage`: the oracle `dl` abstracts whether the HTTP
GET succeeds with status 200 and the body is copied to disk; on success the
image lands at the joined temp path. -/
def downloadImage (dl : String → Bool) (tempDir url : String) (tick : Nat) : Option String :=
  if dl url then some (GoStr.goJoin tempDir (dlFilename url tick)) else none

/-- Image-download loop of `createEPUB`: accumulates the URL-to-internal
path map and the list of internal image file names registered in the EPUB.
go-epub `AddImage` fails exactly when the internal filename is already in
use, and per the source a failed `AddImage` is skipped like a failed
download. -/
def epubAddImagesAux (dl : String → Bool) (tempDir : String) :
    List (Nat × String) → List (String × String) → List String →
      List (String × String) × List String
  | [], imageMap, used => (imageMap, used)
  | (i, url) :: rest, imageMap, used =>
    match downloadImage dl tempDir url i with
    | none => epubAddImagesAux dl tempDir rest imageMap used
    | some imgPath =>
      let imgFilename := GoStr.goBase imgPath
      if imgFilename ∈ used then epubAddImagesAux dl tempDir rest imageMap used
      else
        epubAddImagesAux dl tempDir rest (imageMap ++ [(url, "../images/" ++ imgFilename)])
          (used ++ [imgFilename])

/-- Image downloading and registration for `createEPUB`, starting from the
empty map. -/
def epubAddImages (dl : String → Bool) (tempDir : String) (urls : List String) :
    List (String × String) × List String :=
  epubAddImagesAux dl tempDir urls.enum [] []

/-- Rewrite of the body markup replacing original image URLs with their
mapped values. Go iterates the map in unspecified order; insertion order is
used here, and no claim depends on the rewritten body text. -/
def applyImageMap (imageMap : List (String × String)) (content : String) : String :=
  imageMap.foldl (fun c p => GoStr.goReplaceAll c p.1 p.2) content

/-- Observable shape of the EPUB container written by `createEPUB`. -/
structure EpubOut where
  path : String
  title : String
  author : String
  images : List String
  css : String
  content : String
deriving DecidableEq

/-- The HTML body template of `createEPUB` (the Go source's indentation
white space is not reproduced). -/
def epubHTML (title cssPath author dateStr url content : String) : String :=
  "<html><head><title>" ++ title ++ "</title><link rel=\"stylesheet\" type=\"text/css\" href=\"" ++
    cssPath ++ "\" /></head><body><h1>" ++ title ++ "</h1><p><strong>By " ++ author ++
    "</strong></p><p><em>Published: " ++ dateStr ++ "</em></p><p><em>Source: <a href=\"" ++ url ++
    "\">" ++ url ++ "</a></em></p><hr/>" ++ content ++ "</body></html>"

/-- Model of `createEPUB`. `ioOk` collapses the I/O failure points after the
image loop (CSS temp-file creation and write, AddCSS, AddSection, final
Write), none of which depends on the image list; `fmtDate` abstracts
`time.Time.Format("January 2, 2006")`. -/
def createEPUB (dl : String → Bool) (ioOk : Bool) (tempDir : String) (fmtDate : Nat → String)
    (article : Scraper.Article) : Except String EpubOut :=
  let st := epubAddImages dl tempDir article.ImageURLs
  let content := applyImageMap st.1 article.Content
  if ioOk = false then .error "failed to write EPUB"
  else
    let cssPath := "../css/style.css"
    let filename := sanitizeFilename article.Title ++ " - " ++ sanitizeFilename article.Author ++ ".epub"
    .ok { path := GoStr.goJoin tempDir filename, title := article.Title,
          author := article.Author, images := st.2, css := cssPath,
          content := epubHTML article.Title cssPath article.Author (fmtDate article.PublishedAt)
            article.URL content }

/-- Observable shape of the PalmDB container written by `createMobiFormat`. -/
structure MobiOut where
  path : String
  title : String
  authors : List String
  language : String
  images : List String
  content : String
deriving DecidableEq

/-- The HTML template of `createMobiFormat` (inline style block; literal
braces written with escapes). -/
def mobiHTML (title author dateStr url content : String) : String :=
  "<html><head><title>" ++ title ++
    "</title><style>body \x7b font-family: serif; margin: 5%; text-align: justify; \x7d " ++
    "h1, h2, h3, h4, h5, h6 \x7b text-align: left; margin-top: 1em; \x7d " ++
    "img \x7b max-width: 100%; height: auto; \x7d " ++
    "blockquote \x7b margin: 1em 2em; font-style: italic; \x7d</style></head><body><h1>" ++
    title ++ "</h1><p><strong>By " ++ author ++ "</strong></p><p><em>Published: " ++ dateStr ++
    "</em></p><p><em>Source: <a href=\"" ++ url ++ "\">" ++ url ++ "</a></em></p><hr/>" ++
    content ++ "</body></html>"

/-- Insert-or-replace on the association list modeling the Go map
`imageMap` of `createMobiFormat`. -/
def upsert (m : List (String × String)) (k v : String) : List (String × String) :=
  if m.any (fun p => p.1 = k) then m.map (fun p => if p.1 = k then (k, v) else p)
  else m ++ [(k, v)]

/-- Image-download loop of `createMobiFormat` (downloads only; nothing is
registered in the book). -/
def mobiDownloadAux (dl : String → Bool) (tempDir : String) :
    List (Nat × String) → List (String × String) → List (String × String)
  | [], m => m
  | (i, url) :: rest, m =>
    match downloadImage dl tempDir url i with
    | none => mobiDownloadAux dl tempDir rest m
    | some imgPath => mobiDownloadAux dl tempDir rest (upsert m url imgPath)

/-- Model of `createMobiFormat`: images are downloaded and the body markup
is rewritten to their local base names, but the `mobi.Book` is built from
the single chapter only, so the written container holds no image resources.
`ioOk` covers `os.Create` and `db.Write`; the random `UniqueID` and the
creation timestamp are container metadata not observed by any claim. -/
def createMobiFormat (dl : String → Bool) (ioOk : Bool) (outputPath : String)
    (fmtDate : Nat → String) (article : Scraper.Article) (format : String) :
    Except String MobiOut :=
  let tempDir := GoStr.goDir outputPath
  let imageMap := mobiDownloadAux dl tempDir article.ImageURLs.enum []
  let content :=
    imageMap.foldl (fun c p => GoStr.goReplaceAll c p.1 (GoStr.goBase p.2)) article.Content
  if ioOk = false then .error ("failed to write " ++ format ++ " file")
  else
    .ok { path := outputPath, title := article.Title, authors := [article.Author],
          language := "en", images := [],
          content := mobiHTML article.Title article.Author (fmtDate article.PublishedAt)
            article.URL content }

/-- Environment oracles for a `ConvertArticle` run: converter-tool
availability (`exec.LookPath`), the per-URL image download oracle, and the
success of each I/O step. -/
structure ConvEnv where
  toolAvailable : Bool
  dl : String → Bool
  epubIoOk : Bool
  toolOk : Bool
  directIoOk : Bool
  mkdirOk : Bool
  tempDir : String
  fmtDate : Nat → String

/-- Observable outcome of a `ConvertArticle` run: the returned value plus
the effects the claims talk about. `filesWritten` lists the e-book
container files created (in order), `epubIntermediateRemoved` records the
`os.Remove(epubPath)` call on the intermediate EPUB. -/
structure ConvOutcome where
  result : Except String ConversionResult
  toolInvoked : Bool
  directAttempted : Bool
  epubIntermediateRemoved : Bool
  filesWritten : List String

/-- Shared body of the AZW3 and MOBI branches of `ConvertArticle` (the two
Go branches are textually identical up to the format name). -/
def convertKindleFormat (env : ConvEnv) (article : Scraper.Article) (filename ext : String) :
    ConvOutcome :=
  if env.toolAvailable then
    match createEPUB env.dl env.epubIoOk env.tempDir env.fmtDate article with
    | .error e =>
      { result := .error ("failed to create EPUB: " ++ e), toolInvoked := false,
        directAttempted := false, epubIntermediateRemoved := false, filesWritten := [] }
    | .ok eo =>
      if env.toolOk then
        let outPath := GoStr.goTrimSuffix eo.path ".epub" ++ "." ++ ext
        { result := .ok { FilePath := outPath, Title := article.Title, Author := article.Author },
          toolInvoked := true, directAttempted := false, epubIntermediateRemoved := true,
          filesWritten := [eo.path, outPath] }
      else
        let directPath := GoStr.goJoin env.tempDir (filename ++ "." ++ ext)
        match createMobiFormat env.dl env.directIoOk directPath env.fmtDate article ext with
        | .ok _ =>
          { result := .ok ⟨directPath, article.Title, article.Author⟩,
            toolInvoked := true, directAttempted := true, epubIntermediateRemoved := false,
            filesWritten := [eo.path, directPath] }
        | .error e =>
          { result := .error ("failed to create " ++ ext ++ ": " ++ e), toolInvoked := true,
            directAttempted := true, epubIntermediateRemoved := false, filesWritten := [eo.path] }
  else
    let directPath := GoStr.goJoin env.tempDir (filename ++ "." ++ ext)
    match createMobiFormat env.dl env.directIoOk directPath env.fmtDate article ext with
    | .ok _ =>
      { result := .ok { FilePath := directPath, Title := article.Title, Author := article.Author },
        toolInvoked := false, directAttempted := true, epubIntermediateRemoved := false,
        filesWritten := [directPath] }
    | .error e =>
      { result := .error ("failed to create " ++ ext ++ ": " ++ e), toolInvoked := false,
        directAttempted := true, epubIntermediateRemoved := false, filesWritten := [] }

/-- Model of `ConvertArticle`: temp-directory creation, then dispatch on the
requested format exactly as in the source. -/
def convertArticle (env : ConvEnv) (article : Scraper.Article) (format : String) : ConvOutcome :=
  if env.mkdirOk = false then
    { result := .error "failed to create temp directory", toolInvoked := false,
      directAttempted := false, epubIntermediateRemoved := false, filesWritten := [] }
  else
    let filename := sanitizeFilename article.Title ++ " - " ++ sanitizeFilename article.Author
    if format = "epub" then
      match createEPUB env.dl env.epubIoOk env.tempDir env.fmtDate article with
      | .ok eo =>
        { result := .ok { FilePath := eo.path, Title := article.Title, Author := article.Author },
          toolInvoked := false, directAttempted := false, epubIntermediateRemoved := false,
          filesWritten := [eo.path] }
      | .error e =>
        { result := .error ("failed to create EPUB: " ++ e), toolInvoked := false,
          directAttempted := false, epubIntermediateRemoved := false, filesWritten := [] }
    else if format = "azw3" then convertKindleFormat env article filename "azw3"
    else if format = "mobi" then convertKindleFormat env article filename "mobi"
    else
      { result := .error ("unsupported output format: " ++ format), toolInvoked := false,
        directAttempted := false, epubIntermediateRemoved := false, filesWritten := [] }

/-- Internal image file names of the successfully downloaded references, in
order, one entry per occurrence. -/
def successNames (dl : String → Bool) (tempDir : String) (urls : List String) : List String :=
  urls.enum.filterMap fun p =>
    if dl p.2 then some (GoStr.goBase (GoStr.goJoin tempDir (dlFilename p.2 p.1))) else none

end Converter

/-- True exactly when the `Except` result is an error. -/
def resultIsErr {α : Type} : Except String α → Bool
  | .error _ => true
  | .ok _ => false

/-- True exactly when the `Except` result is a success. -/
def resultIsOk {α : Type} : Except String α → Bool
  | .error _ => false
  | .ok _ => true

section ConverterClaims

/-- An article with no image references (shared test fixture). -/
def artNoImages : Scraper.Article :=
  { Title := "T", Author := "A", PublishedAt := 0, Content := "",
    URL := "https://x.substack.com/p/y", ImageURLs := [] }

/-- An article with one image reference. -/
def artOneImage : Scraper.Article := { artNoImages with ImageURLs := ["http://h/a.jpg"] }

/-- An article with two distinct image references. -/
def artTwoImages : Scraper.Article :=
  { artNoImages with ImageURLs := ["http://h/a.jpg", "http://h/b.jpg"] }

/-- An article listing the same image reference twice. -/
def artDupImages : Scraper.Article :=
  { artNoImages with ImageURLs := ["http://h/a.jpg", "http://h/a.jpg"] }

/-- C5 (confirmed): for every format value outside epub/azw3/mobi,
`ConvertArticle` returns an error, writes no e-book output file, and
attempts no conversion strategy. -/
theorem claim_c5_unsupported_format (env : Converter.ConvEnv) (article : Scraper.Article)
    (format : String)
    (h : ¬ (format = "epub" ∨ format = "azw3" ∨ format = "mobi")) :
    resultIsErr (Converter.convertArticle env article format).result = true ∧
    (Converter.convertArticle env article format).filesWritten = [] ∧
    (Converter.convertArticle env article format).toolInvoked = false ∧
    (Converter.convertArticle env article format).directAttempted = false := by
  have h1 : format ≠ "epub" := fun e => h (Or.inl e)
  have h2 : format ≠ "azw3" := fun e => h (Or.inr (Or.inl e))
  have h3 : format ≠ "mobi" := fun e => h (Or.inr (Or.inr e))
  cases hm : env.mkdirOk <;>
    simp [Converter.convertArticle, hm, h1, h2, h3, resultIsErr]

/-- Environment for the C5 witness. -/
def c5Env : Converter.ConvEnv :=
  { toolAvailable := false, dl := fun _ => true, epubIoOk := true, toolOk := true,
    directIoOk := true, mkdirOk := true, tempDir := "tmp", fmtDate := fun _ => "" }

/-- C5 witness: requesting format `pdf` errors and produces nothing. -/
theorem claim_c5_witness :
    resultIsErr (Converter.convertArticle c5Env artNoImages "pdf").result = true ∧
    (Converter.convertArticle c5Env artNoImages "pdf").filesWritten = [] ∧
    (Converter.convertArticle c5Env artNoImages "pdf").toolInvoked = false ∧
    (Converter.convertArticle c5Env artNoImages "pdf").directAttempted = false :=
  claim_c5_unsupported_format c5Env artNoImages "pdf" (by decide)

/-- C3 (amended): for AZW3/MOBI with the external converter present, the
pipeline first builds the intermediate EPUB and invokes the tool exactly
when that build succeeds. On tool success the intermediate EPUB is removed;
on a non-zero tool exit the pipeline falls back to direct construction but
leaves the intermediate EPUB in place (it is removed only on tool success),
and the conversion then errors exactly when the direct strategy fails. A
failure to build the intermediate EPUB itself also returns an error, without
attempting the direct strategy. -/
theorem claim_c3_tool_fallback_amended (env : Converter.ConvEnv) (article : Scraper.Article)
    (ext : String) (htool : env.toolAvailable = true) (hmk : env.mkdirOk = true)
    (hext : ext = "azw3" ∨ ext = "mobi") :
    (Converter.convertArticle env article ext).toolInvoked = env.epubIoOk ∧
    (env.epubIoOk = true → env.toolOk = true →
      resultIsOk (Converter.convertArticle env article ext).result = true ∧
      (Converter.convertArticle env article ext).epubIntermediateRemoved = true ∧
      (Converter.convertArticle env article ext).directAttempted = false) ∧
    (env.epubIoOk = true → env.toolOk = false →
      (Converter.convertArticle env article ext).directAttempted = true ∧
      (Converter.convertArticle env article ext).epubIntermediateRemoved = false ∧
      resultIsOk (Converter.convertArticle env article ext).result = env.directIoOk) ∧
    (env.epubIoOk = false →
      resultIsErr (Converter.convertArticle env article ext).result = true ∧
      (Converter.convertArticle env article ext).directAttempted = false) := by
  obtain ⟨ta, dl, eio, tok, dio, mk, td, fd⟩ := env
  simp only at htool hmk
  subst htool; subst hmk
  cases eio <;> cases tok <;> cases dio <;> rcases hext with rfl | rfl <;>
    simp [Converter.convertArticle, Converter.convertKindleFormat, Converter.createEPUB,
      Converter.createMobiFormat, resultIsOk, resultIsErr]

/-- Environment for the C3 counterexample and witness: tool present, EPUB
build fine, tool exits non-zero, direct construction fine. -/
def c3EnvA : Converter.ConvEnv :=
  { toolAvailable := true, dl := fun _ => true, epubIoOk := true, toolOk := false,
    directIoOk := true, mkdirOk := true, tempDir := "tmp", fmtDate := fun _ => "" }

/-- Environment where building the intermediate EPUB fails. -/
def c3EnvB : Converter.ConvEnv := { c3EnvA with epubIoOk := false }

/-- C3 counterexample: with the tool present and a non-zero tool exit the
intermediate EPUB is not discarded (the source removes it only on tool
success), and a failure to build the intermediate EPUB returns an error
even though the direct strategy was never attempted, refuting the claims
that the fallback discards the intermediate and that only the direct
strategy's own failure produces an error. -/
theorem claim_c3_cex :
    (Converter.convertArticle c3EnvA artNoImages "azw3").epubIntermediateRemoved = false ∧
    (Converter.convertArticle c3EnvA artNoImages "azw3").directAttempted = true ∧
    resultIsErr (Converter.convertArticle c3EnvB artNoImages "azw3").result = true ∧
    (Converter.convertArticle c3EnvB artNoImages "azw3").directAttempted = false :=
  ⟨rfl, rfl, rfl, rfl⟩

/-- C3 witness: the amended statement applied to the concrete fallback
scenario. -/
theorem claim_c3_witness :
    (Converter.convertArticle c3EnvA artNoImages "azw3").directAttempted = true ∧
    (Converter.convertArticle c3EnvA artNoImages "azw3").epubIntermediateRemoved = false ∧
    resultIsOk (Converter.convertArticle c3EnvA artNoImages "azw3").result = c3EnvA.directIoOk :=
  (claim_c3_tool_fallback_amended c3EnvA artNoImages "azw3" rfl rfl (Or.inl rfl)).2.2.1 rfl rfl

end ConverterClaims

section ImageCountClaims

/-- Splitting a list by a predicate preserves its length. -/
lemma filter_length_split {α : Type} (p : α → Bool) (l : List α) :
    (l.filter p).length + (l.filter fun a => !(p a)).length = l.length := by
  induction l with
  | nil => rfl
  | cons a rest ih => by_cases h : p a <;> simp [h, ih] <;> omega

/-- Indices do not change how many pairs pass a predicate on the element. -/
lemma enumFrom_filter_length {α : Type} (dl : α → Bool) (urls : List α) :
    ∀ n, ((List.enumFrom n urls).filter fun p => dl p.2).length = (urls.filter dl).length := by
  induction urls with
  | nil => intro n; rfl
  | cons u rest ih =>
    intro n
    by_cases h : dl u <;> simp [List.enumFrom, h, ih]

/-- Counting lemma for the `createEPUB` image loop: when the internal file
names of the successful downloads are distinct (among themselves and from
the already-registered names), every successful download registers exactly
one image. -/
lemma epubAddImagesAux_snd_length (dl : String → Bool) (tempDir : String)
    (l : List (Nat × String)) :
    ∀ (imageMap : List (String × String)) (used : List String),
      (used ++ l.filterMap fun p =>
        if dl p.2 then some (GoStr.goBase (GoStr.goJoin tempDir (Converter.dlFilename p.2 p.1)))
        else none).Nodup →
      (Converter.epubAddImagesAux dl tempDir l imageMap used).2.length
        = used.length + (l.filter fun p => dl p.2).length := by
  induction l with
  | nil =>
    intro imageMap used _
    simp [Converter.epubAddImagesAux]
  | cons p rest ih =>
    intro imageMap used h
    obtain ⟨i, url⟩ := p
    by_cases hdl : dl url
    · have hfm :
          ((i, url) :: rest).filterMap (fun p =>
            if dl p.2 then some (GoStr.goBase (GoStr.goJoin tempDir (Converter.dlFilename p.2 p.1)))
            else none)
          = GoStr.goBase (GoStr.goJoin tempDir (Converter.dlFilename url i)) ::
              rest.filterMap (fun p =>
                if dl p.2 then some (GoStr.goBase (GoStr.goJoin tempDir (Converter.dlFilename p.2 p.1)))
                else none) := by
        simp [hdl]
      rw [hfm] at h
      have hne : GoStr.goBase (GoStr.goJoin tempDir (Converter.dlFilename url i)) ∉ used := by
        rw [List.nodup_append] at h
        exact fun hmem => h.2.2 hmem (by simp)
      have h' : ((used ++ [GoStr.goBase (GoStr.goJoin tempDir (Converter.dlFilename url i))]) ++
          rest.filterMap fun p =>
            if dl p.2 then some (GoStr.goBase (GoStr.goJoin tempDir (Converter.dlFilename p.2 p.1)))
            else none).Nodup := by
        simpa using h
      simp only [Converter.epubAddImagesAux, Converter.downloadImage, hdl, if_true]
      rw [if_neg hne, ih _ _ h']
      simp [hdl]
      omega
    · have h' : (used ++ rest.filterMap fun p =>
          if dl p.2 then some (GoStr.goBase (GoStr.goJoin tempDir (Converter.dlFilename p.2 p.1)))
          else none).Nodup := by
        have hfm :
            ((i, url) :: rest).filterMap (fun p =>
              if dl p.2 then some (GoStr.goBase (GoStr.goJoin tempDir (Converter.dlFilename p.2 p.1)))
              else none)
            = rest.filterMap (fun p =>
                if dl p.2 then some (GoStr.goBase (GoStr.goJoin tempDir (Converter.dlFilename p.2 p.1)))
                else none) := by
          simp [hdl]
        rw [hfm] at h
        exact h
      simp [Converter.epubAddImagesAux, Converter.downloadImage, hdl, ih _ _ h']

/-- C2 (amended): on the EPUB path with the post-image I/O succeeding, when
the successfully downloaded references have pairwise distinct local file
names (in particular when the references are distinct URLs with distinct
base names), the produced EPUB registers exactly N − M images for N
references of which M fail to download, and image failures never fail the
conversion; a record with zero references yields a file with no image
entries. The direct MOBI/AZW3 construction, however, registers no images at
all: it only rewrites the body references. -/
theorem claim_c2_image_count_amended (dl : String → Bool) (tempDir : String)
    (fmtDate : Nat → String) (article : Scraper.Article)
    (hnd : (Converter.successNames dl tempDir article.ImageURLs).Nodup) :
    (∃ out, Converter.createEPUB dl true tempDir fmtDate article = .ok out ∧
      out.images.length
        = article.ImageURLs.length - (article.ImageURLs.filter fun u => !(dl u)).length) ∧
    (article.ImageURLs = [] →
      ∃ out, Converter.createEPUB dl true tempDir fmtDate article = .ok out ∧ out.images = []) ∧
    (∀ outputPath format, ∃ m,
      Converter.createMobiFormat dl true outputPath fmtDate article format = .ok m ∧
        m.images = []) := by
  refine ⟨⟨_, rfl, ?_⟩, fun hz => ⟨_, rfl, ?_⟩, fun outputPath format => ⟨_, rfl, rfl⟩⟩
  · have h0 := epubAddImagesAux_snd_length dl tempDir article.ImageURLs.enum [] []
      (by simpa [Converter.successNames] using hnd)
    simp only [List.length_nil, Nat.zero_add] at h0
    have h1 : ((article.ImageURLs.enum).filter fun p => dl p.2).length
        = (article.ImageURLs.filter dl).length :=
      enumFrom_filter_length dl article.ImageURLs 0
    have h2 := filter_length_split dl article.ImageURLs
    show (Converter.epubAddImages dl tempDir article.ImageURLs).2.length = _
    unfold Converter.epubAddImages
    rw [h0, h1]
    omega
  · show (Converter.epubAddImages dl tempDir article.ImageURLs).2 = []
    rw [hz]
    rfl

/-- Download oracle for the C2 witness: the second image reference fails. -/
def c2Dl : String → Bool := fun u => u != "http://h/b.jpg"

/-- C2 witness: two distinct references, one failing download, yield an
EPUB with exactly one registered image. -/
theorem claim_c2_witness :
    ∃ out, Converter.createEPUB c2Dl true "tmp" (fun _ => "") artTwoImages = .ok out ∧
      out.images.length = 1 := by
  obtain ⟨out, h1, h2⟩ :=
    (claim_c2_image_count_amended c2Dl "tmp" (fun _ => "") artTwoImages (by decide)).1
  exact ⟨out, h1, h2.trans (by decide)⟩

/-- Number of images registered in an EPUB result. -/
def epubImagesLen : Except String Converter.EpubOut → Option Nat
  | .ok out => some out.images.length
  | .error _ => none

/-- Number of image resources in a direct MOBI/AZW3 result. -/
def mobiImagesLen : Except String Converter.MobiOut → Option Nat
  | .ok m => some m.images.length
  | .error _ => none

/-- C2 counterexample: a record with the same reference listed twice
(N = 2, M = 0) produces an EPUB with one registered image, not two, because
the second `AddImage` hits a duplicate internal filename and is skipped; and
the direct MOBI/AZW3 path embeds zero images even for one successfully
downloaded reference (N = 1, M = 0), refuting the N − M count as stated. -/
theorem claim_c2_cex :
    epubImagesLen (Converter.createEPUB (fun _ => true) true "tmp" (fun _ => "") artDupImages)
      = some 1 ∧
    mobiImagesLen (Converter.createMobiFormat (fun _ => true) true "tmp/x.azw3" (fun _ => "")
      artOneImage "azw3") = some 0 :=
  ⟨rfl, rfl⟩

end ImageCountClaims

namespace PDFConverter

/-- Model of the pdfconverter `ConversionOptions` record. -/
structure ConversionOptions where
  SkipCalibre : Bool
  CustomTitle : String
  CustomAuthor : String
  IncludeOriginalPDF : Bool
deriving DecidableEq

/-- Model of `DefaultOptions`: note `SkipCalibre` defaults to true. -/
def DefaultOptions : ConversionOptions :=
  { SkipCalibre := true, CustomTitle := "", CustomAuthor := "PDF Conversion",
    IncludeOriginalPDF := false }

/-- Outcome of `os.Stat` on a path. -/
inductive StatR where
  | notExist
  | statErr
  | ok (isDir : Bool)
deriving DecidableEq

/-- Outcome of a Go function call that can also crash with a runtime
panic (nil-pointer dereference). -/
inductive POut (α : Type) where
  | ok (a : α)
  | err (e : String)
  | panicked
deriving DecidableEq

/-- Environment oracles for the pdfconverter: the filesystem stat view,
converter-tool availability, the tool's success, temp-dir creation and the
EPUB write. Text extraction is not modeled because a failed extraction
falls back to placeholder text and never fails the conversion. -/
structure PdfEnv where
  fs : String → StatR
  toolAvailable : Bool
  calibreOk : Bool
  mkdirOk : Bool
  epubIoOk : Bool
  tempDir : String

/-- Model of `validatePDFFile`: stat, directory check, then
case-insensitive `.pdf` extension check, in source order. -/
def validatePDFFile (fs : String → StatR) (pdfPath : String) : Except String Unit :=
  match fs pdfPath with
  | .notExist => .error ("file does not exist: " ++ pdfPath)
  | .statErr => .error "error accessing file"
  | .ok true => .error ("path is a directory, not a file: " ++ pdfPath)
  | .ok false =>
    if GoStr.goHasSuffix (GoStr.goToLower pdfPath) ".pdf" then .ok ()
    else .error ("file does not have a .pdf extension: " ++ pdfPath)

/-- Result of a pdfconverter call together with whether the temporary
working directory (the first piece of conversion work) was created. -/
structure PdfConvOut where
  result : POut Converter.ConversionResult
  tempDirCreated : Bool
deriving DecidableEq

/-- Model of `ConvertPDFToEPUB`. A nil options pointer is replaced by the
defaults locally. `convertWithAlternative` builds cover and chunked
content sections whose assembly no claim observes, and it fails exactly
when writing the EPUB fails (`AddSection` with auto-generated internal
names cannot collide); `epubIoOk` abstracts that write. -/
def convertPDFToEPUB (env : PdfEnv) (pdfPath : String) (opts : Option ConversionOptions) :
    PdfConvOut :=
  let options := opts.getD DefaultOptions
  match validatePDFFile env.fs pdfPath with
  | .error e => { result := .err e, tempDirCreated := false }
  | .ok _ =>
    if env.mkdirOk = false then
      { result := .err "failed to create temp directory", tempDirCreated := false }
    else
      let baseName := GoStr.goBase pdfPath
      let stem := sanitizeFilename (GoStr.goTrimSuffix baseName (GoStr.goExt baseName))
      let epubPath := GoStr.goJoin env.tempDir (stem ++ ".epub")
      let title := if options.CustomTitle ≠ "" then options.CustomTitle else stem
      let author := options.CustomAuthor
      if env.toolAvailable && !options.SkipCalibre && env.calibreOk then
        { result := .ok ⟨epubPath, title, author⟩, tempDirCreated := true }
      else if env.epubIoOk then
        { result := .ok ⟨epubPath, title, author⟩, tempDirCreated := true }
      else
        { result := .err "failed to convert PDF to EPUB: failed to write EPUB file",
          tempDirCreated := true }

/-- Error message of the unimplemented direct EPUB-to-Kindle step
(`convertToAZW3` / `convertToMOBI`), which always fails. -/
def noAltMsg (fmtName : String) : String :=
  "failed to convert EPUB to " ++ fmtName ++ ": no alternative EPUB to " ++ fmtName ++
    " conversion method available; please install Calibre"

/-- Shared body of `ConvertPDFToAZW3` and `ConvertPDFToMOBI` (textually
identical in the source up to the format name). After the EPUB stage the
source evaluates `isEbookConvertAvailable() && !options.SkipCalibre` on the
caller-supplied `options` pointer, which it never replaced when nil: with
the tool available this dereferences nil and panics. -/
def convertPDFToKindle (env : PdfEnv) (pdfPath : String) (opts : Option ConversionOptions)
    (ext fmtName : String) : PdfConvOut :=
  let e := convertPDFToEPUB env pdfPath opts
  match e.result with
  | .err msg => { result := .err msg, tempDirCreated := e.tempDirCreated }
  | .panicked => { result := .panicked, tempDirCreated := e.tempDirCreated }
  | .ok epubResult =>
    let outPath := GoStr.goJoin (GoStr.goDir epubResult.FilePath)
      (GoStr.goTrimSuffix (GoStr.goBase epubResult.FilePath) ".epub" ++ "." ++ ext)
    if env.toolAvailable then
      match opts with
      | none => { result := .panicked, tempDirCreated := true }
      | some o =>
        if !o.SkipCalibre && env.calibreOk then
          { result := .ok ⟨outPath, epubResult.Title, epubResult.Author⟩,
            tempDirCreated := true }
        else
          { result := .err (noAltMsg fmtName), tempDirCreated := true }
    else
      { result := .err (noAltMsg fmtName), tempDirCreated := true }

/-- Model of `ConvertPDFToAZW3`. -/
def ConvertPDFToAZW3 (env : PdfEnv) (pdfPath : String) (opts : Option ConversionOptions) :
    PdfConvOut :=
  convertPDFToKindle env pdfPath opts "azw3" "AZW3"

/-- Model of `ConvertPDFToMOBI`. -/
def ConvertPDFToMOBI (env : PdfEnv) (pdfPath : String) (opts : Option ConversionOptions) :
    PdfConvOut :=
  convertPDFToKindle env pdfPath opts "mobi" "MOBI"

/-- True exactly when the outcome is a returned error. -/
def poutIsErr {α : Type} : POut α → Bool
  | .err _ => true
  | _ => false

/-- True exactly when the outcome is a success. -/
def poutIsOk {α : Type} : POut α → Bool
  | .ok _ => true
  | _ => false

end PDFConverter

section PDFClaims

/-- C8 (amended): converting a PDF to AZW3 or MOBI with nil (default)
options never succeeds: when the external converter is not installed the
call returns an error (the direct EPUB-to-AZW3/MOBI step is unimplemented),
but when the converter is installed and the EPUB stage succeeds the call
does not return an error at all — it dereferences the nil options pointer
and panics. -/
theorem claim_c8_pdf_kindle_amended (env : PDFConverter.PdfEnv) (pdfPath : String) :
    (PDFConverter.poutIsOk (PDFConverter.ConvertPDFToAZW3 env pdfPath none).result = false ∧
     PDFConverter.poutIsOk (PDFConverter.ConvertPDFToMOBI env pdfPath none).result = false) ∧
    (env.toolAvailable = false →
      PDFConverter.poutIsErr (PDFConverter.ConvertPDFToAZW3 env pdfPath none).result = true ∧
      PDFConverter.poutIsErr (PDFConverter.ConvertPDFToMOBI env pdfPath none).result = true) ∧
    (env.toolAvailable = true →
      PDFConverter.poutIsOk (PDFConverter.convertPDFToEPUB env pdfPath none).result = true →
      (PDFConverter.ConvertPDFToAZW3 env pdfPath none).result = .panicked ∧
      (PDFConverter.ConvertPDFToMOBI env pdfPath none).result = .panicked) := by
  obtain ⟨fs, ta, cal, mk, eio, td⟩ := env
  simp only
  cases hv : PDFConverter.validatePDFFile fs pdfPath <;>
    cases mk <;> cases eio <;> cases ta <;>
      simp [PDFConverter.ConvertPDFToAZW3, PDFConverter.ConvertPDFToMOBI,
        PDFConverter.convertPDFToKindle, PDFConverter.convertPDFToEPUB,
        PDFConverter.DefaultOptions, hv, PDFConverter.poutIsOk, PDFConverter.poutIsErr]

/-- Filesystem for the C8/C9 scenarios: one regular `.pdf` file, one
regular `.PDF` file, one directory, everything else missing. -/
def pdfFs : String → PDFConverter.StatR := fun p =>
  if p = "/docs/x.pdf" then .ok false
  else if p = "/docs/y.PDF" then .ok false
  else if p = "/docs/dir" then .ok true
  else if p = "/docs/notes.txt" then .ok false
  else .notExist

/-- A pdfconverter environment with the external converter installed and
all I/O succeeding. -/
def c8Env : PDFConverter.PdfEnv :=
  { fs := pdfFs, toolAvailable := true, calibreOk := true, mkdirOk := true,
    epubIoOk := true, tempDir := "tmp" }

/-- C8 counterexample: with the external converter installed, the AZW3
conversion of a valid PDF with nil options panics on the nil options
dereference instead of returning an error, refuting the claim that the call
always returns an error regardless of converter installation. -/
theorem claim_c8_cex :
    (PDFConverter.ConvertPDFToAZW3 c8Env "/docs/x.pdf" none).result = .panicked ∧
    (PDFConverter.ConvertPDFToMOBI c8Env "/docs/x.pdf" none).result = .panicked :=
  ⟨rfl, rfl⟩

/-- A pdfconverter environment with no external converter installed. -/
def c8EnvNoTool : PDFConverter.PdfEnv := { c8Env with toolAvailable := false }

/-- C8 witness: without the external converter, AZW3 and MOBI conversion
with nil options return errors. -/
theorem claim_c8_witness :
    PDFConverter.poutIsErr (PDFConverter.ConvertPDFToAZW3 c8EnvNoTool "/docs/x.pdf" none).result
      = true ∧
    PDFConverter.poutIsErr (PDFConverter.ConvertPDFToMOBI c8EnvNoTool "/docs/x.pdf" none).result
      = true :=
  (claim_c8_pdf_kindle_amended c8EnvNoTool "/docs/x.pdf").2.1 rfl

/-- C9 (confirmed): PDF path validation accepts the `.pdf` extension
case-insensitively on existing regular files, and rejects every
nonexistent path, every directory, and every path whose extension is not
`.pdf` in any letter case; a validation failure makes `ConvertPDFToEPUB`
return the error before any conversion work (no temporary directory is
created). -/
theorem claim_c9_pdf_validation (fs : String → PDFConverter.StatR) (path : String)
    (env : PDFConverter.PdfEnv) (opts : Option PDFConverter.ConversionOptions) :
    (fs path = .ok false → GoStr.goHasSuffix (GoStr.goToLower path) ".pdf" = true →
      PDFConverter.validatePDFFile fs path = .ok ()) ∧
    (fs path = .notExist → resultIsErr (PDFConverter.validatePDFFile fs path) = true) ∧
    (fs path = .ok true → resultIsErr (PDFConverter.validatePDFFile fs path) = true) ∧
    (fs path = .ok false → GoStr.goHasSuffix (GoStr.goToLower path) ".pdf" = false →
      resultIsErr (PDFConverter.validatePDFFile fs path) = true) ∧
    (resultIsErr (PDFConverter.validatePDFFile env.fs path) = true →
      PDFConverter.poutIsErr (PDFConverter.convertPDFToEPUB env path opts).result = true ∧
      (PDFConverter.convertPDFToEPUB env path opts).tempDirCreated = false) := by
  refine ⟨?_, ?_, ?_, ?_, ?_⟩
  · intro hfs hsuf
    simp [PDFConverter.validatePDFFile, hfs, hsuf]
  · intro hfs
    simp [PDFConverter.validatePDFFile, hfs, resultIsErr]
  · intro hfs
    simp [PDFConverter.validatePDFFile, hfs, resultIsErr]
  · intro hfs hsuf
    simp [PDFConverter.validatePDFFile, hfs, hsuf, resultIsErr]
  · intro herr
    cases hv : PDFConverter.validatePDFFile env.fs path with
    | ok u => rw [hv] at herr; simp [resultIsErr] at herr
    | error e =>
      simp [PDFConverter.convertPDFToEPUB, hv, PDFConverter.poutIsErr]

/-- C9 witness: an existing regular file with an upper-case `.PDF`
extension passes validation; a missing path, a directory, and a `.txt`
path are rejected, the latter with no conversion work started. -/
theorem claim_c9_witness :
    PDFConverter.validatePDFFile pdfFs "/docs/y.PDF" = .ok () ∧
    resultIsErr (PDFConverter.validatePDFFile pdfFs "/docs/missing.pdf") = true ∧
    resultIsErr (PDFConverter.validatePDFFile pdfFs "/docs/dir") = true ∧
    resultIsErr (PDFConverter.validatePDFFile pdfFs "/docs/notes.txt") = true ∧
    PDFConverter.poutIsErr
      (PDFConverter.convertPDFToEPUB c8Env "/docs/notes.txt" none).result = true ∧
    (PDFConverter.convertPDFToEPUB c8Env "/docs/notes.txt" none).tempDirCreated = false := by
  refine ⟨(claim_c9_pdf_validation pdfFs "/docs/y.PDF" c8Env none).1 (by decide) (by decide),
    (claim_c9_pdf_validation pdfFs "/docs/missing.pdf" c8Env none).2.1 (by decide),
    (claim_c9_pdf_validation pdfFs "/docs/dir" c8Env none).2.2.1 (by decide),
    (claim_c9_pdf_validation pdfFs "/docs/notes.txt" c8Env none).2.2.2.1 (by decide) (by decide),
    ?_, ?_⟩
  · exact ((claim_c9_pdf_validation pdfFs "/docs/notes.txt" c8Env none).2.2.2.2 (by decide)).1
  · exact ((claim_c9_pdf_validation pdfFs "/docs/notes.txt" c8Env none).2.2.2.2 (by decide)).2

end PDFClaims

namespace Sender

/-- Model of the sender `EmailConfig` record. -/
structure EmailConfig where
  From : String
  To : String
  Password : String
  SMTPHost : String
  SMTPPort : String
deriving DecidableEq

/-- One MIME part as emitted by `multipart.Writer.CreatePart`: its header
lines (in the sorted key order Go writes them) and its body. -/
structure MimePart where
  headers : List (String × String)
  body : String
deriving DecidableEq, Inhabited

/-- The message assembled by `SendToKindle` together with the SMTP call
arguments: top-level header fields, the multipart payload, and the
recipient list passed to `smtp.SendMail`. -/
structure SentEmail where
  msgFrom : String
  msgTo : String
  subject : String
  boundary : String
  parts : List MimePart
  recipients : List String
  smtpAddr : String
  smtpFrom : String
deriving DecidableEq, Inhabited

/-- Environment oracles for a `SendToKindle` call: the bytes of the file at
`result.FilePath`, whether `os.Open` and the SMTP transaction succeed, and
the random multipart boundary. -/
structure SendEnv where
  fileBytes : List Nat
  openOk : Bool
  smtpOk : Bool
  boundary : String

/-- The ASCII apostrophe used in the plain-text body. -/
def apos : String := String.singleton (Char.ofNat 39)

/-- Model of `SendToKindle`: writes From/To/Subject/MIME-Version/
Content-Type headers, a plain-text part announcing title and author, then
one base64 attachment part whose Content-Disposition carries the base name
of the output file (header keys in the sorted order Go emits), and calls
`smtp.SendMail(host:port, auth, from, [config.To], msg)`. Message
construction on the in-memory buffer cannot fail; `os.Open` and the SMTP
send can. -/
def sendToKindle (env : SendEnv) (result : Converter.ConversionResult) (config : EmailConfig) :
    Except String SentEmail :=
  if env.openOk = false then .error ("failed to open file: " ++ result.FilePath)
  else
    let textPart : MimePart :=
      { headers := [("Content-Type", "text/plain; charset=UTF-8")],
        body := "Sending " ++ apos ++ result.Title ++ apos ++ " by " ++ result.Author ++
          " to your Kindle.\r\n" }
    let attachmentPart : MimePart :=
      { headers :=
          [("Content-Disposition",
            "attachment; filename=\"" ++ GoStr.goBase result.FilePath ++ "\""),
           ("Content-Transfer-Encoding", "base64"),
           ("Content-Type", "application/octet-stream")],
        body := String.mk (B64.b64Encode env.fileBytes) }
    if env.smtpOk = false then .error "failed to send email"
    else
      .ok { msgFrom := config.From, msgTo := config.To, subject := result.Title,
            boundary := env.boundary, parts := [textPart, attachmentPart],
            recipients := [config.To],
            smtpAddr := config.SMTPHost ++ ":" ++ config.SMTPPort, smtpFrom := config.From }

end Sender

section StringSubLemmas

/-- Appending strings concatenates their character data. -/
lemma strData_append (s t : String) : (s ++ t).data = s.data ++ t.data := rfl

/-- String append is associative. -/
lemma strAppend_assoc (s t u : String) : s ++ t ++ u = s ++ (t ++ u) := by
  rcases s with ⟨l1⟩; rcases t with ⟨l2⟩; rcases u with ⟨l3⟩
  show String.mk (l1 ++ l2 ++ l3) = String.mk (l1 ++ (l2 ++ l3))
  rw [List.append_assoc]

/-- A list starts with itself, up to a trailing extension. -/
lemma startsWithL_self_append (p r : List Char) : GoStr.startsWithL (p ++ r) p = true := by
  induction p with
  | nil => cases r <;> rfl
  | cons c cs ih =>
    show GoStr.startsWithL (c :: (cs ++ r)) (c :: cs) = true
    simp [GoStr.startsWithL, ih]

/-- An occurrence survives prepending. -/
lemma occursInL_append_left (l m p : List Char) (h : GoStr.occursInL m p = true) :
    GoStr.occursInL (l ++ m) p = true := by
  induction l with
  | nil => exact h
  | cons c cs ih =>
    show GoStr.occursInL (c :: (cs ++ m)) p = true
    rw [GoStr.occursInL]
    split
    · rfl
    · exact ih

/-- A pattern occurs at the front of itself plus anything. -/
lemma occursInL_self (p r : List Char) : GoStr.occursInL (p ++ r) p = true := by
  cases p with
  | nil => cases r <;> simp [GoStr.occursInL, GoStr.startsWithL]
  | cons c cs =>
    show GoStr.occursInL (c :: (cs ++ r)) (c :: cs) = true
    rw [GoStr.occursInL]
    rw [show GoStr.startsWithL (c :: (cs ++ r)) (c :: cs)
        = GoStr.startsWithL ((c :: cs) ++ r) (c :: cs) from rfl]
    rw [startsWithL_self_append]
    rfl

/-- Substring occurrence in the middle of a concatenation. -/
lemma strHasSub_mid (a p b : String) : GoStr.strHasSub (a ++ p ++ b) p = true := by
  show GoStr.occursInL (a ++ p ++ b).data p.data = true
  rw [strData_append, strData_append, List.append_assoc]
  exact occursInL_append_left _ _ _ (occursInL_self _ _)

/-- Substring occurrence survives prepending. -/
lemma strHasSub_append_left (a s p : String) (h : GoStr.strHasSub s p = true) :
    GoStr.strHasSub (a ++ s) p = true := by
  show GoStr.occursInL (a ++ s).data p.data = true
  rw [strData_append]
  exact occursInL_append_left _ _ _ h

/-- A string occurs at the front of itself plus anything. -/
lemma strHasSub_self_append (p b : String) : GoStr.strHasSub (p ++ b) p = true := by
  show GoStr.occursInL (p ++ b).data p.data = true
  rw [strData_append]
  exact occursInL_self _ _

end StringSubLemmas

section SenderClaims

/-- C6 (amended): on a successful delivery the message carries the
outcome's title as subject (the author appears only in the plain-text
body), a plain-text part announcing title and author followed by exactly
one base64 attachment part whose Content-Disposition filename equals the
base name of the output file, and is transmitted to exactly one
recipient. -/
theorem claim_c6_email_amended (env : Sender.SendEnv) (result : Converter.ConversionResult)
    (config : Sender.EmailConfig) (h1 : env.openOk = true) (h2 : env.smtpOk = true) :
    ∃ sent, Sender.sendToKindle env result config = .ok sent ∧
      sent.subject = result.Title ∧
      sent.parts.length = 2 ∧
      GoStr.strHasSub (sent.parts.getD 0 default).body result.Title = true ∧
      GoStr.strHasSub (sent.parts.getD 0 default).body result.Author = true ∧
      (sent.parts.getD 1 default).headers.lookup "Content-Transfer-Encoding" = some "base64" ∧
      (sent.parts.getD 1 default).headers.lookup "Content-Disposition"
        = some ("attachment; filename=\"" ++ GoStr.goBase result.FilePath ++ "\"") ∧
      sent.recipients = [config.To] := by
  obtain ⟨bytes, oOk, sOk, bnd⟩ := env
  simp only at h1 h2
  subst h1; subst h2
  refine ⟨_, rfl, rfl, rfl, ?_, ?_, rfl, rfl, rfl⟩
  · show GoStr.strHasSub ("Sending " ++ Sender.apos ++ result.Title ++ Sender.apos ++ " by " ++
      result.Author ++ " to your Kindle.\r\n") result.Title = true
    simp only [strAppend_assoc]
    exact strHasSub_append_left _ _ _ (strHasSub_append_left _ _ _ (strHasSub_self_append _ _))
  · show GoStr.strHasSub ("Sending " ++ Sender.apos ++ result.Title ++ Sender.apos ++ " by " ++
      result.Author ++ " to your Kindle.\r\n") result.Author = true
    simp only [strAppend_assoc]
    exact strHasSub_append_left _ _ _ (strHasSub_append_left _ _ _ (strHasSub_append_left _ _ _
      (strHasSub_append_left _ _ _ (strHasSub_append_left _ _ _ (strHasSub_self_append _ _)))))

/-- Conversion outcome used by the C6/C10 scenarios. -/
def c6Result : Converter.ConversionResult :=
  { FilePath := "tmp/f.epub", Title := "My Post", Author := "Jane" }

/-- Email configuration used by the C6/C10 scenarios. -/
def c6Config : Sender.EmailConfig :=
  { From := "from@x", To := "kindle@x", Password := "p", SMTPHost := "smtp.x", SMTPPort := "587" }

/-- Sending environment used by the C6/C10 scenarios. -/
def c6Env : Sender.SendEnv :=
  { fileBytes := [1, 2, 3], openOk := true, smtpOk := true, boundary := "b" }

/-- Projection of a successful send (arbitrary default on error). -/
def getSent : Except String Sender.SentEmail → Sender.SentEmail
  | .ok s => s
  | .error _ => default

/-- C6 counterexample: the subject line is exactly the title; the author
does not occur in it, refuting the claim that the subject carries
title/author of the outcome. -/
theorem claim_c6_cex :
    (getSent (Sender.sendToKindle c6Env c6Result c6Config)).subject = "My Post" ∧
    GoStr.strHasSub (getSent (Sender.sendToKindle c6Env c6Result c6Config)).subject "Jane"
      = false :=
  ⟨rfl, rfl⟩

/-- C6 witness: the amended statement at the concrete scenario. -/
theorem claim_c6_witness :
    ∃ sent, Sender.sendToKindle c6Env c6Result c6Config = .ok sent ∧
      sent.subject = c6Result.Title ∧
      sent.parts.length = 2 ∧
      GoStr.strHasSub (sent.parts.getD 0 default).body c6Result.Title = true ∧
      GoStr.strHasSub (sent.parts.getD 0 default).body c6Result.Author = true ∧
      (sent.parts.getD 1 default).headers.lookup "Content-Transfer-Encoding" = some "base64" ∧
      (sent.parts.getD 1 default).headers.lookup "Content-Disposition"
        = some ("attachment; filename=\"" ++ GoStr.goBase c6Result.FilePath ++ "\"") ∧
      sent.recipients = [c6Config.To] :=
  claim_c6_email_amended c6Env c6Result c6Config rfl rfl

end SenderClaims

section Base64Claims

/-- The alphabet index inverts the alphabet lookup on six-bit values. -/
lemma b64Val_b64Char : ∀ s : Nat, s < 64 → B64.b64Val (B64.b64Char s) = s := by decide

/-- No six-bit value encodes to the padding character. -/
lemma b64Char_ne_pad : ∀ s : Nat, s < 64 → ¬ B64.b64Char s = '=' := by decide

/-- Standard base64 decoding inverts encoding on byte sequences. -/
theorem b64_roundtrip (bs : List Nat) (h : ∀ x ∈ bs, x < 256) :
    B64.b64Decode (B64.b64Encode bs) = bs := by
  induction bs using B64.b64Encode.induct with
  | case1 => rfl
  | case2 a =>
    have ha : a < 256 := h a (by simp)
    show B64.b64Decode [B64.b64Char (a / 4), B64.b64Char (a % 4 * 16), '=', '='] = [a]
    rw [B64.b64Decode]
    rw [if_pos rfl, if_pos rfl]
    rw [b64Val_b64Char _ (by omega), b64Val_b64Char _ (by omega)]
    have : a / 4 * 4 + a % 4 * 16 / 16 = a := by omega
    rw [this]
  | case3 a b =>
    have ha : a < 256 := h a (by simp)
    have hb : b < 256 := h b (by simp)
    show B64.b64Decode
      [B64.b64Char (a / 4), B64.b64Char (a % 4 * 16 + b / 16), B64.b64Char (b % 16 * 4), '=']
      = [a, b]
    rw [B64.b64Decode]
    rw [if_pos rfl, if_neg (b64Char_ne_pad _ (by omega))]
    rw [b64Val_b64Char _ (by omega), b64Val_b64Char _ (by omega), b64Val_b64Char _ (by omega)]
    have e1 : a / 4 * 4 + (a % 4 * 16 + b / 16) / 16 = a := by omega
    have e2 : (a % 4 * 16 + b / 16) % 16 * 16 + b % 16 * 4 / 4 = b := by omega
    rw [e1, e2]
  | case4 a b d rest ih =>
    have ha : a < 256 := h a (by simp)
    have hb : b < 256 := h b (by simp)
    have hd : d < 256 := h d (by simp)
    have hrest : ∀ x ∈ rest, x < 256 := fun x hx => h x (by simp [hx])
    show B64.b64Decode (B64.b64Char (a / 4) :: B64.b64Char (a % 4 * 16 + b / 16) ::
      B64.b64Char (b % 16 * 4 + d / 64) :: B64.b64Char (d % 64) :: B64.b64Encode rest)
      = a :: b :: d :: rest
    rw [B64.b64Decode]
    rw [if_neg (b64Char_ne_pad _ (by omega))]
    rw [b64Val_b64Char _ (by omega), b64Val_b64Char _ (by omega), b64Val_b64Char _ (by omega),
      b64Val_b64Char _ (by omega)]
    have e1 : a / 4 * 4 + (a % 4 * 16 + b / 16) / 16 = a := by omega
    have e2 : (a % 4 * 16 + b / 16) % 16 * 16 + (b % 16 * 4 + d / 64) / 4 = b := by omega
    have e3 : (b % 16 * 4 + d / 64) % 4 * 64 + d % 64 = d := by omega
    rw [e1, e2, e3, ih hrest]

/-- C10 (confirmed): decoding the base64 attachment body of the message
built by the delivery operation yields exactly the bytes of the output
file; the encoding step is a lossless round-trip. -/
theorem claim_c10_attachment_roundtrip (env : Sender.SendEnv)
    (result : Converter.ConversionResult) (config : Sender.EmailConfig)
    (h1 : env.openOk = true) (h2 : env.smtpOk = true)
    (hb : ∀ x ∈ env.fileBytes, x < 256) :
    ∃ sent, Sender.sendToKindle env result config = .ok sent ∧
      B64.b64Decode ((sent.parts.getD 1 default).body).data = env.fileBytes := by
  obtain ⟨bytes, oOk, sOk, bnd⟩ := env
  simp only at h1 h2 hb
  subst h1; subst h2
  refine ⟨_, rfl, ?_⟩
  show B64.b64Decode (String.mk (B64.b64Encode bytes)).data = bytes
  exact b64_roundtrip bytes hb

/-- C10 witness: the round trip at a concrete file content. -/
theorem claim_c10_witness :
    ∃ sent, Sender.sendToKindle c6Env c6Result c6Config = .ok sent ∧
      B64.b64Decode ((sent.parts.getD 1 default).body).data = c6Env.fileBytes :=
  claim_c10_attachment_roundtrip c6Env c6Result c6Config rfl rfl (by decide)

end Base64Claims

namespace MainFlow

/-- The pipeline stages of `main`. -/
inductive Stage where
  | acquire
  | convert
  | deliver
  | cleanup
deriving DecidableEq

/-- Observable trace of one `main` run: the stages entered in order,
whether the temporary output file was removed, and whether the process
exited successfully (`log.Fatalf` aborts with a non-zero status). -/
structure RunTrace where
  stages : List Stage
  fileRemoved : Bool
  exitOk : Bool
deriving DecidableEq

/-- Model of the `main` orchestration (both entry-point variants): scrape
or read, convert, send, then remove the output file; each stage's error
terminates the run via `log.Fatalf` before any later stage, and
`os.Remove(result.FilePath)` runs only after a successful
`SendToKindle`. -/
def runMain (acquireR : Except String Scraper.Article)
    (convertR : Scraper.Article → Except String Converter.ConversionResult)
    (deliverR : Converter.ConversionResult → Except String Unit) : RunTrace :=
  match acquireR with
  | .error _ => { stages := [.acquire], fileRemoved := false, exitOk := false }
  | .ok article =>
    match convertR article with
    | .error _ => { stages := [.acquire, .convert], fileRemoved := false, exitOk := false }
    | .ok result =>
      match deliverR result with
      | .error _ =>
        { stages := [.acquire, .convert, .deliver], fileRemoved := false, exitOk := false }
      | .ok _ =>
        { stages := [.acquire, .convert, .deliver, .cleanup], fileRemoved := true,
          exitOk := true }

end MainFlow

section MainClaims

/-- C7 (confirmed): every run enters the stages in the fixed order
Acquire → Convert → Deliver → Cleanup (the trace is a prefix of the full
sequence), a fatal error in a stage stops the trace at that stage, cleanup
runs exactly on full success, and the temporary output file is removed
exactly when the run reaches cleanup — hence only after a successful
delivery. -/
theorem claim_c7_pipeline_order (aR : Except String Scraper.Article)
    (cR : Scraper.Article → Except String Converter.ConversionResult)
    (dR : Converter.ConversionResult → Except String Unit) :
    (MainFlow.runMain aR cR dR).stages
        <+: [MainFlow.Stage.acquire, .convert, .deliver, .cleanup] ∧
    ((MainFlow.runMain aR cR dR).fileRemoved = true ↔
      (MainFlow.runMain aR cR dR).stages
        = [MainFlow.Stage.acquire, .convert, .deliver, .cleanup]) ∧
    (MainFlow.Stage.cleanup ∈ (MainFlow.runMain aR cR dR).stages ↔
      (MainFlow.runMain aR cR dR).exitOk = true) ∧
    ((MainFlow.runMain aR cR dR).fileRemoved = true ↔
      (MainFlow.runMain aR cR dR).exitOk = true) ∧
    (resultIsErr aR = true → (MainFlow.runMain aR cR dR).stages = [MainFlow.Stage.acquire]) ∧
    (∀ a, aR = .ok a → resultIsErr (cR a) = true →
      (MainFlow.runMain aR cR dR).stages = [MainFlow.Stage.acquire, .convert]) ∧
    (∀ a r, aR = .ok a → cR a = .ok r → resultIsErr (dR r) = true →
      (MainFlow.runMain aR cR dR).stages = [MainFlow.Stage.acquire, .convert, .deliver] ∧
      (MainFlow.runMain aR cR dR).fileRemoved = false) := by
  cases aR with
  | error e =>
    refine ⟨⟨_, rfl⟩, by simp [MainFlow.runMain], by simp [MainFlow.runMain],
      by simp [MainFlow.runMain], fun _ => by simp [MainFlow.runMain],
      fun a ha => by simp at ha, fun a r ha => by simp at ha⟩
  | ok a0 =>
    cases hc : cR a0 with
    | error e =>
      refine ⟨by simp only [MainFlow.runMain, hc]; exact ⟨_, rfl⟩, by simp [MainFlow.runMain, hc],
        by simp [MainFlow.runMain, hc], by simp [MainFlow.runMain, hc],
        fun habs => by simp [resultIsErr] at habs, ?_, ?_⟩
      · intro a ha _
        simp [MainFlow.runMain, hc]
      · intro a r ha hcr
        obtain rfl : a0 = a := by injection ha
        rw [hcr] at hc
        injection hc
    | ok r0 =>
      cases hd : dR r0 with
      | error e =>
        refine ⟨by simp only [MainFlow.runMain, hc, hd]; exact ⟨_, rfl⟩, by simp [MainFlow.runMain, hc, hd],
          by simp [MainFlow.runMain, hc, hd], by simp [MainFlow.runMain, hc, hd],
          fun habs => by simp [resultIsErr] at habs, ?_, ?_⟩
        · intro a ha hcr
          obtain rfl : a0 = a := by injection ha
          rw [hc] at hcr
          simp [resultIsErr] at hcr
        · intro a r ha hcr _
          simp [MainFlow.runMain, hc, hd]
      | ok u =>
        refine ⟨by simp only [MainFlow.runMain, hc, hd]; exact ⟨_, rfl⟩, by simp [MainFlow.runMain, hc, hd],
          by simp [MainFlow.runMain, hc, hd], by simp [MainFlow.runMain, hc, hd],
          fun habs => by simp [resultIsErr] at habs, ?_, ?_⟩
        · intro a ha hcr
          obtain rfl : a0 = a := by injection ha
          rw [hc] at hcr
          simp [resultIsErr] at hcr
        · intro a r ha hcr hdr
          obtain rfl : a0 = a := by injection ha
          rw [hc] at hcr
          obtain rfl : r0 = r := by injection hcr
          rw [hd] at hdr
          simp [resultIsErr] at hdr

/-- C7 witness: a run whose delivery fails stops after the deliver stage
and does not remove the output file. -/
theorem claim_c7_witness :
    (MainFlow.runMain (.ok artNoImages)
        (fun a => .ok ⟨"tmp/f.epub", a.Title, a.Author⟩) (fun _ => .error "net")).stages
      = [MainFlow.Stage.acquire, .convert, .deliver] ∧
    (MainFlow.runMain (.ok artNoImages)
        (fun a => .ok ⟨"tmp/f.epub", a.Title, a.Author⟩) (fun _ => .error "net")).fileRemoved
      = false :=
  (claim_c7_pipeline_order (.ok artNoImages)
      (fun a => .ok ⟨"tmp/f.epub", a.Title, a.Author⟩)
      (fun _ => .error "net")).2.2.2.2.2.2 artNoImages
    ⟨"tmp/f.epub", artNoImages.Title, artNoImages.Author⟩ rfl rfl rfl

end MainClaims
